import Mathlib

/-!
Shallow embedding of the CupidDB cache engine (the `cupiddb/cupiddb`
repository) and proofs about its request dispatcher, store, expirer and
frame codec.

Modelling conventions:
* Byte strings (`Vec<u8>`, keys, payloads) are `List Nat`, each element a
  byte value.  Rust `String` keys are modelled by their UTF-8 byte lists;
  `std::str::from_utf8` on them is the identity.
* Machine integers are `Nat`/`Int` with explicit reductions modulo powers
  of two where the Rust code truncates or wraps.  Signed 64-bit addition
  (`+=` on `i64`) is modelled with two's-complement wrapping, the release
  semantics the specification adopts.
* `DashMap` is modelled as an association list together with insert,
  remove, get, contains and clear operations; each dispatcher call is
  atomic in the model, mirroring per-request sequential execution.
* Fallible Rust code becomes `Option`: a `panic!`, `expect` or `unwrap`
  failure is `none`; a returned reply/state pair is `some`.
* External library seams (serde JSON parsing, `glob_match`, the Arrow IPC
  stream reader and writer, and IEEE-754 `f64` operations) are fields of
  an explicit `Ext` structure passed to the handlers that call them.
  Theorems quantify over `Ext`, so nothing proved depends on a particular
  behaviour of those external collaborators.
* `SystemTime::now()` is an explicit `now : Nat` parameter (milliseconds);
  `SystemTime` deadlines are absolute millisecond instants.
-/

namespace CupidDB

/-- Byte strings: lists of byte values. -/
abbrev Bytes := List Nat

/-- Big-endian encoding of a natural number into `len` bytes, truncating
to the low `len` bytes, as `u64::to_be_bytes`/`u16::to_be_bytes` do. -/
def natToBeBytes : Nat → Nat → Bytes
  | 0, _ => []
  | l + 1, n => natToBeBytes l (n / 256) ++ [n % 256]

/-- Big-endian decoding of a byte list into a natural number, as
`u64::from_be_bytes`/`u16::from_be_bytes` do. -/
def beBytesToNat (bs : Bytes) : Nat :=
  bs.foldl (fun a b => 256 * a + b) 0

/-- Reinterpret an unsigned 64-bit value as a signed two's-complement
integer, as `i64::from_be_bytes` does after `beBytesToNat`. -/
def toSigned64 (n : Nat) : Int :=
  if n < 2 ^ 63 then (n : Int) else (n : Int) - 2 ^ 64

/-- Low 64 bits of an integer in two's complement, as `as u64` / the bit
pattern of an `i64`. -/
def toUnsigned64 (i : Int) : Nat :=
  (i % (2 ^ 64 : Int)).toNat

/-- Big-endian byte encoding of an `i64` value. -/
def i64ToBytes (i : Int) : Bytes :=
  natToBeBytes 8 (toUnsigned64 i)

/-- Big-endian byte decoding of an `i64` value. -/
def bytesToI64 (bs : Bytes) : Int :=
  toSigned64 (beBytesToNat bs)

/-- Wrapping (two's-complement) reduction into the `i64` range, the
release-mode semantics of `i64` addition. -/
def wrap64 (i : Int) : Int :=
  (i + 2 ^ 63) % 2 ^ 64 - 2 ^ 63

/-- Rust `as iN` truncating cast from a wider signed integer. -/
def toSigned (w : Nat) (v : Int) : Int :=
  (v + 2 ^ (w - 1)) % 2 ^ w - 2 ^ (w - 1)

/-- Rust `as uN` truncating cast from a signed integer. -/
def toUnsigned (w : Nat) (v : Int) : Nat :=
  (v % (2 ^ w : Int)).toNat

/-- Byte of a list at index `i` (the handlers establish the bound checks
that Rust indexing enforces before this is consulted). -/
def byteAt (l : Bytes) (i : Nat) : Nat :=
  (l.drop i).headD 0

/-! ### Association-list model of `DashMap` -/

/-- Remove every binding of key `k`, modelling `DashMap::remove`. -/
def alRemove {α : Type} (k : Bytes) (m : List (Bytes × α)) : List (Bytes × α) :=
  m.filter (fun p => decide (p.1 ≠ k))

/-- Insert a binding, replacing any previous one, modelling
`DashMap::insert` and in-place entry updates. -/
def alInsert {α : Type} (k : Bytes) (v : α) (m : List (Bytes × α)) : List (Bytes × α) :=
  (k, v) :: alRemove k m

/-- Look a key up, modelling `DashMap::get`. -/
def alGet {α : Type} (k : Bytes) : List (Bytes × α) → Option α
  | [] => none
  | p :: rest => if p.1 = k then some p.2 else alGet k rest

/-- Key membership, modelling `DashMap::contains_key`. -/
def alContains {α : Type} (k : Bytes) (m : List (Bytes × α)) : Bool :=
  (alGet k m).isSome

/-! ### Columnar data model (`src/handler/filterer.rs`)

Arrow arrays are homogeneous typed columns; a column is modelled by its
runtime `ArrowType` (on the schema field) and its cells.  A `Cell` carries
an integer value for the integer, date and timestamp types, a 64- or
32-bit IEEE-754 bit pattern for the float types, a `Bool`, or a `String`;
null entries are out of scope for the claims considered here. -/

/-- Runtime Arrow data types that `process_filter` dispatches on; every
other type hits its `panic!("Not implemented for data type")` arm. -/
inductive ArrowType where
  | i64 | i32 | i16 | i8
  | u64 | u32 | u16 | u8
  | f64 | f32
  | boolean | utf8
  | date32 | tsNano
  | unsupported
deriving DecidableEq, Repr

/-- One cell of a column. -/
inductive Cell where
  | cInt (i : Int)
  | cFloat (bits : Nat)
  | cBool (b : Bool)
  | cStr (s : String)
deriving DecidableEq, Repr

/-- Integer content of a cell (columns of integer-like type only hold
`cInt` cells; the default is never consulted on well-typed batches). -/
def cellInt : Cell → Int
  | .cInt i => i
  | _ => 0

/-- Float bit-pattern content of a cell. -/
def cellFloat : Cell → Nat
  | .cFloat b => b
  | _ => 0

/-- Boolean content of a cell. -/
def cellBool : Cell → Bool
  | .cBool b => b
  | _ => false

/-- String content of a cell. -/
def cellStr : Cell → String
  | .cStr s => s
  | _ => ""

/-- A schema field: name and runtime data type. -/
structure FieldT where
  name : String
  dtype : ArrowType
deriving DecidableEq, Repr

/-- A record batch: schema fields, the parallel list of columns, and the
row count, mirroring `arrow::record_batch::RecordBatch`. -/
structure RecordBatchM where
  fields : List FieldT
  cols : List (List Cell)
  nrows : Nat
deriving DecidableEq, Repr

/-- One filter clause of a `GA` query (`ColumnFilter` in the source);
`value_flt` carries the 64-bit IEEE-754 bit pattern of the JSON float. -/
structure ColumnFilter where
  col : String
  filter_type : String
  data_type : String
  value_int : Option Int
  value_flt : Option Nat
  value_bol : Option Bool
  value_str : Option String
deriving DecidableEq, Repr

/-- A parsed `GA` query (`Query` in the source); `key` is the UTF-8 byte
list of the source record-batch key. -/
structure QueryM where
  key : Bytes
  columns : List String
  filterlogic : String
  filter : List ColumnFilter
  cachetime : Nat
  compression_type : String
deriving DecidableEq, Repr

/-- Comparison operators of `filter_array`. -/
inductive CmpOp where
  | gt | gte | lt | lte | eq | neq
deriving DecidableEq, Repr

/-- Dispatch of `filter_array` on the `filter_type` string: `gt`, `eq`,
`lt`, `gte`, `lte` in source order, anything else defaulting to `neq`. -/
def cmpOfString (s : String) : CmpOp :=
  if s = "gt" then .gt
  else if s = "eq" then .eq
  else if s = "lt" then .lt
  else if s = "gte" then .gte
  else if s = "lte" then .lte
  else .neq

/-- Integer comparison kernel (also used for booleans via `toNat`). -/
def intCmp : CmpOp → Int → Int → Bool
  | .gt, a, b => decide (a > b)
  | .gte, a, b => decide (a ≥ b)
  | .lt, a, b => decide (a < b)
  | .lte, a, b => decide (a ≤ b)
  | .eq, a, b => decide (a = b)
  | .neq, a, b => decide (a ≠ b)

/-- String comparison kernel (lexicographic, as the Arrow UTF-8 compare
kernels order byte strings). -/
def strCmp : CmpOp → String → String → Bool
  | .gt, a, b => decide (a > b)
  | .gte, a, b => decide (a ≥ b)
  | .lt, a, b => decide (a < b)
  | .lte, a, b => decide (a ≤ b)
  | .eq, a, b => decide (a = b)
  | .neq, a, b => decide (a ≠ b)

/-- Boolean comparison kernel: `false < true`, as in Arrow. -/
def boolCmp (op : CmpOp) (a b : Bool) : Bool :=
  intCmp op a.toNat b.toNat

/-- The result of one `StreamReader` interaction in
`handle_get_arrow_data`: `try_new` failing, or the first `next()` call
returning `None`, `Some(Err(_))` or `Some(Ok(batch))`. -/
inductive StreamReadResult where
  | headerError
  | endOfStream
  | batchError
  | batch (rb : RecordBatchM)

/-- The compression chosen for the IPC writer by `compression_type`. -/
inductive CompressionTag where
  | lz4 | zstd
deriving DecidableEq, Repr

/-- External collaborators of the dispatcher, passed in explicitly:
serde JSON parsing, `glob_match`, the Arrow IPC stream reader and writer,
and IEEE-754 double operations (addition, comparison kernels and the
`f64`-to-`f32` cast, on bit patterns).  Theorems quantify over this
structure. -/
structure Ext where
  parseQuery : Bytes → Option QueryM
  globMatch : Bytes → Bytes → Bool
  readStream : Bytes → StreamReadResult
  encode : RecordBatchM → Option CompressionTag → Bytes
  addF64 : Nat → Nat → Nat
  cmpF64 : CmpOp → Nat → Nat → Bool
  cmpF32 : CmpOp → Nat → Nat → Bool
  f64toF32 : Nat → Nat

/-- Look a column up by field name, as `column_by_name` does, returning
the field and its cells. -/
def columnByName (rb : RecordBatchM) (name : String) : Option (FieldT × List Cell) :=
  ((rb.fields.zip rb.cols).find? (fun p => p.1.name == name)).map (fun p => (p.1, p.2))

/-- Whether `schema.field_with_name(name).is_ok()`. -/
def fieldExists (rb : RecordBatchM) (name : String) : Bool :=
  (rb.fields.find? (fun f => f.name == name)).isSome

/-- Mask for one kept filter clause: the column is fetched by name, a
constant array of the clause value (cast to the column's runtime type) is
compared elementwise against the column.  `none` models the panics of the
source closure: `column_by_name(..).expect`, `value_*.unwrap()` on a
missing value field, and the unsupported-type `panic!`. -/
def computeMask (ext : Ext) (rb : RecordBatchM) (item : ColumnFilter) : Option (List Bool) :=
  match columnByName rb item.col with
  | none => none
  | some (f, cells) =>
    let op := cmpOfString item.filter_type
    match f.dtype with
    | .i64 => item.value_int.map (fun v =>
        cells.map (fun c => intCmp op (cellInt c) (toSigned 64 v)))
    | .i32 => item.value_int.map (fun v =>
        cells.map (fun c => intCmp op (cellInt c) (toSigned 32 v)))
    | .i16 => item.value_int.map (fun v =>
        cells.map (fun c => intCmp op (cellInt c) (toSigned 16 v)))
    | .i8 => item.value_int.map (fun v =>
        cells.map (fun c => intCmp op (cellInt c) (toSigned 8 v)))
    | .u64 => item.value_int.map (fun v =>
        cells.map (fun c => intCmp op (cellInt c) (toUnsigned 64 v)))
    | .u32 => item.value_int.map (fun v =>
        cells.map (fun c => intCmp op (cellInt c) (toUnsigned 32 v)))
    | .u16 => item.value_int.map (fun v =>
        cells.map (fun c => intCmp op (cellInt c) (toUnsigned 16 v)))
    | .u8 => item.value_int.map (fun v =>
        cells.map (fun c => intCmp op (cellInt c) (toUnsigned 8 v)))
    | .f64 => item.value_flt.map (fun v =>
        cells.map (fun c => ext.cmpF64 op (cellFloat c) v))
    | .f32 => item.value_flt.map (fun v =>
        cells.map (fun c => ext.cmpF32 op (cellFloat c) (ext.f64toF32 v)))
    | .boolean => item.value_bol.map (fun v =>
        cells.map (fun c => boolCmp op (cellBool c) v))
    | .utf8 => item.value_str.map (fun v =>
        cells.map (fun c => strCmp op (cellStr c) v))
    | .date32 => item.value_int.map (fun v =>
        cells.map (fun c => intCmp op (cellInt c) (toSigned 32 v)))
    | .tsNano => item.value_int.map (fun v =>
        cells.map (fun c => intCmp op (cellInt c) (toSigned 64 v)))
    | .unsupported => none

/-- `Iterator::reduce`: `none` on an empty iterator. -/
def listReduce {α : Type} (g : α → α → α) : List α → Option α
  | [] => none
  | x :: xs => some (xs.foldl g x)

/-- Combination of two clause masks by `filterlogic`: bitwise AND when the
logic string is `"AND"`, bitwise OR otherwise. -/
def maskCombine (filterlogic : String) (m1 m2 : List Bool) : List Bool :=
  if filterlogic = "AND" then List.zipWith and m1 m2 else List.zipWith or m1 m2

/-- `arrow::compute::filter`: keep the cells whose mask entry is true. -/
def maskFilter (mask : List Bool) (cells : List Cell) : List Cell :=
  ((cells.zip mask).filter (fun p => p.2)).map (fun p => p.1)

/-- Whether a column's cells all match its field's runtime type. -/
def colWellTyped : ArrowType → List Cell → Bool
  | .f64, cells => cells.all (fun c => match c with | .cFloat _ => true | _ => false)
  | .f32, cells => cells.all (fun c => match c with | .cFloat _ => true | _ => false)
  | .boolean, cells => cells.all (fun c => match c with | .cBool _ => true | _ => false)
  | .utf8, cells => cells.all (fun c => match c with | .cStr _ => true | _ => false)
  | .unsupported, _ => false
  | _, cells => cells.all (fun c => match c with | .cInt _ => true | _ => false)

/-- `RecordBatch::try_new`: fails on an empty column list, a field/column
count mismatch, unequal column lengths, or a column whose contents do not
match its field's type. -/
def tryNewRB (fs : List FieldT) (cols : List (List Cell)) : Option RecordBatchM :=
  if fs.length ≠ cols.length then none
  else
    match cols.head? with
    | none => none
    | some c0 =>
      if cols.all (fun c => c.length = c0.length) &&
          (fs.zip cols).all (fun p => colWellTyped p.1.dtype p.2) then
        some ⟨fs, cols, c0.length⟩
      else none

/-- Embedding of `process_filter`.  The clause list is first restricted to
clauses whose `data_type` tag is recognized and whose column exists; each
kept clause yields a mask; the masks are reduced by `filterlogic` and the
`reduce(..).unwrap()` of the source turns an empty kept list into a panic
(`none`).  An empty filter list yields the all-true mask.  The mask is
then applied to the (optionally projected) columns and the batch is
re-assembled with `RecordBatch::try_new` (schema metadata is not
modelled). -/
def processFilter (ext : Ext) (rb : RecordBatchM) (cols : List String)
    (filterlogic : String) (filters : List ColumnFilter) : Option RecordBatchM :=
  let maskRes : Option (List Bool) :=
    if filters.length > 0 then
      let keep := filters.filter (fun item =>
        ["IN", "FL", "DA", "DT", "ST", "BL"].contains item.data_type &&
          fieldExists rb item.col)
      match keep.mapM (computeMask ext rb) with
      | none => none
      | some masks => listReduce (maskCombine filterlogic) masks
    else some (List.replicate rb.nrows true)
  match maskRes with
  | none => none
  | some mask =>
    if cols.length > 0 then
      let keepField := fun (f : FieldT) => cols.contains f.name
      let filtered_columns :=
        ((rb.cols.zip rb.fields).filter (fun p => keepField p.2)).map
          (fun p => maskFilter mask p.1)
      let fields := rb.fields.filter keepField
      tryNewRB fields filtered_columns
    else
      tryNewRB rb.fields (rb.cols.map (maskFilter mask))

/-! ### The store state and the request dispatcher
(`src/handler/handler.rs`) -/

/-- The shared state: the sharded value map (`shared_db`) and the deadline
map (`timeout_db`, absolute millisecond instants). -/
structure DBState where
  shared : List (Bytes × Bytes)
  timeout : List (Bytes × Nat)
deriving DecidableEq, Repr

/-- A dispatcher reply: reply opcode and reply payload. -/
abbrev Reply := String × Bytes

/-- Error reply with the given code, `error_code.to_be_bytes()`. -/
def erReply (code : Nat) : Reply := ("ER", natToBeBytes 2 code)

/-- Embedding of `handle_set_data`.  The header accesses
(`payload[0..8]`, `payload[8]`, `payload[9..11]`) panic when fewer than
11 bytes are present; `key_index_until` is computed in `u16` arithmetic
(wrapping) and the key slice `payload[11..key_index_until]` panics when
out of range.  The stored value is `payload[key_index_until..]`
verbatim. -/
def handle_set_data (now : Nat) (payload : Bytes) (st : DBState) :
    Option (Reply × DBState) :=
  if payload.length < 11 then none
  else
    let cache_time_ms := beBytesToNat (payload.take 8)
    let is_add := byteAt payload 8 ≠ 0
    let key_len := 256 * byteAt payload 9 + byteAt payload 10
    let key_index_until := (key_len + 11) % 65536
    if key_index_until < 11 ∨ payload.length < key_index_until then none
    else
      let key := (payload.drop 11).take key_len
      if is_add ∧ alContains key st.shared then some (("NA", []), st)
      else
        let shared1 := alInsert key (payload.drop key_index_until) st.shared
        if cache_time_ms > 0 then
          some (("OK", []), ⟨shared1, alInsert key (now + cache_time_ms) st.timeout⟩)
        else
          some (("OK", []), ⟨shared1, alRemove key st.timeout⟩)

/-- Embedding of `handle_increment_integer`.  `payload[0..8]` panics on a
short payload, and `int_bytes[0]` panics when the stored value is empty;
a stored value not of shape tag `I` plus 8 bytes replies error 5. -/
def handle_increment_integer (payload : Bytes) (st : DBState) :
    Option (Reply × DBState) :=
  if payload.length < 8 then none
  else
    let key := payload.drop 8
    match alGet key st.shared with
    | some int_bytes =>
      if int_bytes = [] then none
      else if int_bytes.headD 0 ≠ 73 ∨ int_bytes.length ≠ 9 then
        some (erReply 5, st)
      else
        let int_data := bytesToI64 (int_bytes.drop 1)
        let increment_amount := bytesToI64 (payload.take 8)
        let v := wrap64 (int_data + increment_amount)
        some (("IN", i64ToBytes v), ⟨alInsert key (73 :: i64ToBytes v) st.shared, st.timeout⟩)
    | none =>
      some (("IN", payload.take 8),
        ⟨alInsert key (73 :: payload.take 8) st.shared, st.timeout⟩)

/-- Embedding of `handle_increment_float`; the tag is `F` and the 64-bit
IEEE-754 addition is the external seam `ext.addF64` on bit patterns. -/
def handle_increment_float (ext : Ext) (payload : Bytes) (st : DBState) :
    Option (Reply × DBState) :=
  if payload.length < 8 then none
  else
    let key := payload.drop 8
    match alGet key st.shared with
    | some float_bytes =>
      if float_bytes = [] then none
      else if float_bytes.headD 0 ≠ 70 ∨ float_bytes.length ≠ 9 then
        some (erReply 5, st)
      else
        let float_data := beBytesToNat (float_bytes.drop 1)
        let increment_amount := beBytesToNat (payload.take 8)
        let v := ext.addF64 float_data increment_amount
        some (("FL", natToBeBytes 8 v),
          ⟨alInsert key (70 :: natToBeBytes 8 v) st.shared, st.timeout⟩)
    | none =>
      some (("FL", payload.take 8),
        ⟨alInsert key (70 :: payload.take 8) st.shared, st.timeout⟩)

/-- The writer compression chosen from `compression_type`, per the
`IpcWriteOptions` logic of the source. -/
def compressionOf (s : String) : Option CompressionTag :=
  if s = "lz4" then some .lz4 else if s = "zstd" then some .zstd else none

/-- Embedding of `handle_get_arrow_data`.  In source order: memo hit on
the raw payload as key; JSON parse (error 3); source fetch (error 2);
tag check, with `record_batch_bytes[0]` panicking on an empty value and a
non-`A` tag replying error 4; `StreamReader::try_new(..).expect` panicking
on a header read failure while a failed or absent first batch replies
error 4; filtering (panics propagate); encoding; and memoization of the
encoded buffer under the payload key when `cachetime > 0`. -/
def handle_get_arrow_data (ext : Ext) (now : Nat) (payload : Bytes) (st : DBState) :
    Option (Reply × DBState) :=
  match alGet payload st.shared with
  | some byte_data => some (("AR", byte_data), st)
  | none =>
    match ext.parseQuery payload with
    | none => some (erReply 3, st)
    | some query =>
      match alGet query.key st.shared with
      | none => some (erReply 2, st)
      | some record_batch_bytes =>
        if record_batch_bytes = [] then none
        else if record_batch_bytes.headD 0 ≠ 65 then some (erReply 4, st)
        else
          match ext.readStream (record_batch_bytes.drop 1) with
          | .headerError => none
          | .endOfStream => some (erReply 4, st)
          | .batchError => some (erReply 4, st)
          | .batch rb =>
            match processFilter ext rb query.columns query.filterlogic query.filter with
            | none => none
            | some frb =>
              let buffer := ext.encode frb (compressionOf query.compression_type)
              if query.cachetime > 0 then
                some (("AR", buffer),
                  ⟨alInsert payload buffer st.shared,
                   alInsert payload (now + query.cachetime) st.timeout⟩)
              else some (("AR", buffer), st)

/-- Embedding of `handle_get_data`: the first stored byte selects the
reply opcode and is stripped from the payload; `bytes_data[0]` panics on
an empty stored value; an unknown tag replies error 5 and a missing key
error 2. -/
def handle_get_data (payload : Bytes) (st : DBState) : Option (Reply × DBState) :=
  match alGet payload st.shared with
  | some bytes_data =>
    if bytes_data = [] then none
    else
      let data_type := bytes_data.headD 0
      if data_type = 65 then some (("AR", bytes_data.drop 1), st)
      else if data_type = 66 then some (("BY", bytes_data.drop 1), st)
      else if data_type = 73 then some (("IN", bytes_data.drop 1), st)
      else if data_type = 70 then some (("FL", bytes_data.drop 1), st)
      else some (erReply 5, st)
  | none => some (erReply 2, st)

/-- Embedding of `handle_delete`: the deadline is removed first in every
case; a missing value key replies error 2. -/
def handle_delete (payload : Bytes) (st : DBState) : Option (Reply × DBState) :=
  let st1 : DBState := ⟨st.shared, alRemove payload st.timeout⟩
  if alContains payload st1.shared then
    some (("OK", []), ⟨alRemove payload st1.shared, st1.timeout⟩)
  else some (erReply 2, st1)

/-- Embedding of `handle_touch`: `payload[0..8]` panics on a short
payload; a present key has its deadline set (positive `cache_time_ms`) or
removed (zero); a missing key replies error 2. -/
def handle_touch (now : Nat) (payload : Bytes) (st : DBState) :
    Option (Reply × DBState) :=
  if payload.length < 8 then none
  else
    let cache_time_ms := beBytesToNat (payload.take 8)
    let key := payload.drop 8
    if alContains key st.shared then
      if cache_time_ms > 0 then
        some (("OK", []), ⟨st.shared, alInsert key (now + cache_time_ms) st.timeout⟩)
      else
        some (("OK", []), ⟨st.shared, alRemove key st.timeout⟩)
    else some (erReply 2, st)

/-- Embedding of `handle_ttl`: a future (or present) deadline replies the
remaining milliseconds, a past deadline error 0, a key with no deadline
replies 0, and a missing key error 2. -/
def handle_ttl (now : Nat) (payload : Bytes) (st : DBState) :
    Option (Reply × DBState) :=
  match alGet payload st.timeout with
  | some live_until =>
    if now ≤ live_until then some (("TL", natToBeBytes 8 (live_until - now)), st)
    else some (erReply 0, st)
  | none =>
    if alContains payload st.shared then some (("TL", natToBeBytes 8 0), st)
    else some (erReply 2, st)

/-- Embedding of `handle_has_key`. -/
def handle_has_key (payload : Bytes) (st : DBState) : Option (Reply × DBState) :=
  if alContains payload st.shared then some (("OK", [1]), st)
  else some (("OK", [0]), st)

/-- Embedding of `handle_list_keys`: keys that parse as query JSON are
excluded; the rest are included when the pattern is empty or glob-matches;
the trailing NUL is popped. -/
def handle_list_keys (ext : Ext) (payload : Bytes) (st : DBState) :
    Option (Reply × DBState) :=
  let keys_payload_bytes := st.shared.foldl (fun acc e =>
    match ext.parseQuery e.1 with
    | some _ => acc
    | none =>
      if payload.length = 0 then acc ++ e.1 ++ [0]
      else if ext.globMatch payload e.1 then acc ++ e.1 ++ [0]
      else acc) []
  some (("KY", keys_payload_bytes.dropLast), st)

/-- One iteration of the `handle_delete_many` loop: remove the key's
deadline, then remove its value, counting actual removals. -/
def dmStep (acc : DBState × Nat) (key : Bytes) : DBState × Nat :=
  let st1 : DBState := ⟨acc.1.shared, alRemove key acc.1.timeout⟩
  if alContains key st1.shared then
    (⟨alRemove key st1.shared, st1.timeout⟩, acc.2 + 1)
  else (st1, acc.2)

/-- Embedding of `handle_delete_many`: the payload splits on NUL into
keys, each removed from both maps; the reply carries the removal count as
a 16-bit big-endian value (wrapping). -/
def handle_delete_many (payload : Bytes) (st : DBState) : Option (Reply × DBState) :=
  let del_keys := payload.splitOn 0
  let result := del_keys.foldl dmStep (st, 0)
  some (("DM", natToBeBytes 2 result.2), result.1)

/-- Embedding of `handle_flush`. -/
def handle_flush (st : DBState) : Option (Reply × DBState) :=
  some (("FU", []), ⟨[], []⟩)

/-- Embedding of `handle_frame`, the dispatcher. -/
def handle_frame (ext : Ext) (now : Nat) (message_type : String)
    (payload : Bytes) (st : DBState) : Option (Reply × DBState) :=
  match message_type with
  | "SD" => handle_set_data now payload st
  | "II" => handle_increment_integer payload st
  | "IF" => handle_increment_float ext payload st
  | "GA" => handle_get_arrow_data ext now payload st
  | "GD" => handle_get_data payload st
  | "DL" => handle_delete payload st
  | "TH" => handle_touch now payload st
  | "TL" => handle_ttl now payload st
  | "HK" => handle_has_key payload st
  | "LS" => handle_list_keys ext payload st
  | "DM" => handle_delete_many payload st
  | "FU" => handle_flush st
  | "WP" => some (erReply 6, st)
  | "CC" => some (("CC", []), st)
  | _ => some (erReply 1, st)

/-! ### Expirer (`src/handler/cache_manager.rs`) -/

/-- Embedding of `cleanup_expired_entries`: collect, in map iteration
order, up to `BATCH_SIZE = 100` keys whose deadline is strictly before
`now`, then remove each collected key from the value map and then from
the deadline map. -/
def cleanupExpired (now : Nat) (st : DBState) : DBState :=
  let remove_keys := ((st.timeout.filter (fun p => decide (now > p.2))).map
    (fun p => p.1)).take 100
  remove_keys.foldl (fun s k => ⟨alRemove k s.shared, alRemove k s.timeout⟩) st

/-- One sequential step of the system: a dispatched frame or one expirer
cleanup pass. -/
inductive Step where
  | frame (ext : Ext) (now : Nat) (message_type : String) (payload : Bytes)
  | cleanup (now : Nat)

/-- Apply one step.  A dispatcher call that panics (`none`) mutates
nothing: every panic in the handlers occurs before the first store
mutation of that handler. -/
def applyStep (st : DBState) : Step → DBState
  | .frame ext now mt payload =>
    match handle_frame ext now mt payload st with
    | some r => r.2
    | none => st
  | .cleanup now => cleanupExpired now st

/-- Run a sequence of steps from a state. -/
def runSteps (st : DBState) (l : List Step) : DBState :=
  l.foldl applyStep st

/-- The deadline-domain invariant: every key of the deadline map is a key
of the value map. -/
def domSub (st : DBState) : Prop :=
  ∀ k, alContains k st.timeout → alContains k st.shared

/-! ### Frame codec (`src/handler/connection.rs`)

The codec is modelled on byte streams: `write_frame` produces the bytes
put on the socket and `read_frame` consumes a byte stream.  Opcodes are
their two-byte ASCII encodings; the synthetic opcodes are `CC = [67,67]`
(header read failure) and `WP = [87,80]` (wrong version byte).  A payload
read failure leaves the unread suffix of the zero-initialized buffer. -/

/-- Embedding of `write_frame`: version byte `B`, opcode bytes, 8-byte
big-endian length, payload. -/
def write_frame (message_type : Bytes) (payload : Bytes) : Bytes :=
  66 :: message_type ++ natToBeBytes 8 payload.length ++ payload

/-- Embedding of `read_frame` on a byte stream. -/
def read_frame (input : Bytes) : Bytes × Bytes :=
  if input.length < 11 then ([67, 67], [])
  else
    let header := input.take 11
    let packet_length := beBytesToNat (header.drop 3)
    let message_type :=
      if header.headD 0 = 66 then (header.drop 1).take 2 else [87, 80]
    let rest := input.drop 11
    let payload :=
      if packet_length ≤ rest.length then rest.take packet_length
      else rest ++ List.replicate (packet_length - rest.length) 0
    (message_type, payload)

/-! ### Request builders and concrete instances used by the theorems -/

/-- An `SD` request payload: cache time, is_add flag byte, big-endian key
length, key bytes, value bytes. -/
def sdPayload (ct a : Nat) (k v : Bytes) : Bytes :=
  natToBeBytes 8 ct ++ [a] ++ natToBeBytes 2 k.length ++ k ++ v

/-- An `II` or `IF` request payload: big-endian delta, key bytes. -/
def iiPayload (d : Int) (k : Bytes) : Bytes :=
  i64ToBytes d ++ k

/-- Run a sequence of `II` requests with the given deltas against one
key, returning the payload of the last `IN` reply and the final state;
`none` when the list is empty or some request panics. -/
def runII (k : Bytes) : DBState → List Int → Option (Bytes × DBState)
  | _, [] => none
  | st, d :: rest =>
    match handle_increment_integer (iiPayload d k) st with
    | none => none
    | some r =>
      match rest with
      | [] => some (r.1.2, r.2)
      | _ :: _ => runII k r.2 rest

/-- A trivial external-collaborator instance used to instantiate
witnesses whose claims do not depend on the external behaviour. -/
def extId : Ext :=
  ⟨fun _ => none, fun _ _ => false, fun _ => .headerError, fun _ _ => [],
   fun a _ => a, fun _ _ _ => false, fun _ _ _ => false, fun a => a⟩

/-- The parsed query used by the C4 instance: source key `t`, no
projection, no filter, no memoization. -/
def qC4 : QueryM := ⟨[116], [], "AND", [], 0, ""⟩

/-- External instance for the C4 instance: the payload parses to `qC4`
and the stream reader fails while reading the stream header. -/
def extC4 : Ext :=
  ⟨fun _ => some qC4, fun _ _ => false, fun _ => .headerError, fun _ _ => [],
   fun a _ => a, fun _ _ _ => false, fun _ _ _ => false, fun a => a⟩

/-- The parsed query used by the C2 counterexample: source key `t`, no
projection, no filter, memoized for 1000 ms, no compression. -/
def qC2 : QueryM := ⟨[116], [], "AND", [], 1000, ""⟩

/-- The one-column one-row batch decoded in the C2 counterexample. -/
def rbC2 : RecordBatchM := ⟨[⟨"a", .i64⟩], [[.cInt 1]], 1⟩

/-- External instance for the C2 counterexample: the payload parses to
`qC2`, the reader produces `rbC2`, and the IPC writer emits the stream
continuation marker bytes `FF FF FF FF` that begin every Arrow V5
stream. -/
def extC2 : Ext :=
  ⟨fun _ => some qC2, fun _ _ => false, fun _ => .batch rbC2,
   fun _ _ => [255, 255, 255, 255], fun a _ => a, fun _ _ _ => false,
   fun _ _ _ => false, fun a => a⟩

/-- The `GA` payload bytes of the C2 counterexample (the fingerprint
key). -/
def plC2 : Bytes := [113]

/-- Store state of the C2 counterexample: the source batch bytes, tagged
`A`, under key `t`. -/
def stC2 : DBState := ⟨[([116], [65, 9])], []⟩

/-- The filter clause of the C3 instance: its `data_type` tag `XX` is not
recognized, so the clause is skipped. -/
def clauseC3 : ColumnFilter := ⟨"a", "gt", "XX", some 1, none, none, none⟩

/-- The two-row batch of the C3 instance. -/
def rbC3 : RecordBatchM := ⟨[⟨"a", .i64⟩], [[.cInt 1, .cInt 2]], 2⟩

/-! ### Helper lemmas: byte codecs -/

theorem length_natToBeBytes (l n : Nat) : (natToBeBytes l n).length = l := by
  induction l generalizing n with
  | zero => rfl
  | succ l ih => simp [natToBeBytes, ih]

theorem beBytesToNat_append_singleton (xs : Bytes) (b : Nat) :
    beBytesToNat (xs ++ [b]) = 256 * beBytesToNat xs + b := by
  simp [beBytesToNat, List.foldl_append]

theorem beBytesToNat_natToBeBytes (l n : Nat) :
    beBytesToNat (natToBeBytes l n) = n % 256 ^ l := by
  induction l generalizing n with
  | zero => simp [natToBeBytes, beBytesToNat, Nat.mod_one]
  | succ l ih =>
    rw [natToBeBytes, beBytesToNat_append_singleton, ih]
    rw [pow_succ, mul_comm (256 ^ l) 256, Nat.mod_mul]
    omega

theorem beBytesToNat_natToBeBytes_of_lt {l n : Nat} (h : n < 256 ^ l) :
    beBytesToNat (natToBeBytes l n) = n := by
  rw [beBytesToNat_natToBeBytes, Nat.mod_eq_of_lt h]

theorem toUnsigned64_lt (i : Int) : toUnsigned64 i < 2 ^ 64 := by
  have h := Int.emod_lt_of_pos i (by norm_num : (0 : Int) < 2 ^ 64)
  have h0 := Int.emod_nonneg i (by norm_num : (2 ^ 64 : Int) ≠ 0)
  unfold toUnsigned64
  omega

theorem bytesToI64_i64ToBytes {i : Int} (h1 : -2 ^ 63 ≤ i) (h2 : i < 2 ^ 63) :
    bytesToI64 (i64ToBytes i) = i := by
  have hlt : toUnsigned64 i < 2 ^ 64 := toUnsigned64_lt i
  have h256 : (256 : Nat) ^ 8 = 2 ^ 64 := by norm_num
  rw [bytesToI64, i64ToBytes, beBytesToNat_natToBeBytes_of_lt (by omega)]
  have h0 := Int.emod_nonneg i (by norm_num : (2 ^ 64 : Int) ≠ 0)
  have hl := Int.emod_lt_of_pos i (by norm_num : (0 : Int) < 2 ^ 64)
  have hcase : (i % (2 ^ 64 : Int)) = if 0 ≤ i then i else i + 2 ^ 64 := by
    split <;> omega
  unfold toSigned64 toUnsigned64
  rw [hcase]
  split
  · split <;> (push_cast [Int.toNat_of_nonneg] <;> omega)
  · split <;> (push_cast [Int.toNat_of_nonneg] <;> omega)

theorem length_i64ToBytes (i : Int) : (i64ToBytes i).length = 8 :=
  length_natToBeBytes 8 (toUnsigned64 i)

theorem wrap64_lb (i : Int) : -2 ^ 63 ≤ wrap64 i := by
  have h0 := Int.emod_nonneg (i + 2 ^ 63) (by norm_num : (2 ^ 64 : Int) ≠ 0)
  unfold wrap64
  omega

theorem wrap64_ub (i : Int) : wrap64 i < 2 ^ 63 := by
  have h := Int.emod_lt_of_pos (i + 2 ^ 63) (by norm_num : (0 : Int) < 2 ^ 64)
  unfold wrap64
  omega

theorem wrap64_of_range {i : Int} (h1 : -2 ^ 63 ≤ i) (h2 : i < 2 ^ 63) :
    wrap64 i = i := by
  unfold wrap64
  rw [Int.emod_eq_of_lt (by omega) (by omega)]
  omega

theorem wrap64_add_left (a b : Int) : wrap64 (wrap64 a + b) = wrap64 (a + b) := by
  unfold wrap64
  have h : (a + 2 ^ 63) % (2 ^ 64 : Int) - 2 ^ 63 + b + 2 ^ 63 =
      (a + 2 ^ 63) % 2 ^ 64 + b := by ring
  rw [h, Int.emod_add_emod]
  ring_nf

/-! ### Helper lemmas: association-list maps -/

theorem alGet_remove {α : Type} (k k' : Bytes) (m : List (Bytes × α)) :
    alGet k' (alRemove k m) = if k' = k then none else alGet k' m := by
  induction m with
  | nil => simp [alRemove, alGet]
  | cons p rest ih =>
    by_cases hp : p.1 = k
    · have hdrop : alRemove k (p :: rest) = alRemove k rest := by
        simp [alRemove, List.filter_cons, hp]
      by_cases hk : k' = k
      · rw [hdrop, ih]
        simp [hk]
      · have hne : ¬ p.1 = k' := by
          rw [hp]
          exact fun h => hk h.symm
        rw [hdrop, ih]
        simp [hk, alGet, hne]
    · have hkeep : alRemove k (p :: rest) = p :: alRemove k rest := by
        simp [alRemove, List.filter_cons, hp]
      rw [hkeep]
      by_cases hpk : p.1 = k'
      · have hk : ¬ k' = k := by
          intro h
          rw [h] at hpk
          exact hp hpk
        simp [alGet, hpk, hk]
      · simp [alGet, hpk, ih]

theorem alGet_insert {α : Type} (k k' : Bytes) (v : α) (m : List (Bytes × α)) :
    alGet k' (alInsert k v m) = if k' = k then some v else alGet k' m := by
  by_cases h : k' = k
  · subst h
    simp [alInsert, alGet]
  · have h2 : ¬ k = k' := fun hh => h hh.symm
    simp [alInsert, alGet, h2, alGet_remove, h]

theorem alGet_insert_self {α : Type} (k : Bytes) (v : α) (m : List (Bytes × α)) :
    alGet k (alInsert k v m) = some v := by
  simp [alGet_insert]

theorem alContains_insert {α : Type} (k k' : Bytes) (v : α) (m : List (Bytes × α)) :
    alContains k' (alInsert k v m) = (decide (k' = k) || alContains k' m) := by
  rw [alContains, alGet_insert]
  by_cases h : k' = k <;> simp [h, alContains]

theorem alContains_remove {α : Type} (k k' : Bytes) (m : List (Bytes × α)) :
    alContains k' (alRemove k m) = (!decide (k' = k) && alContains k' m) := by
  rw [alContains, alGet_remove]
  by_cases h : k' = k <;> simp [h, alContains]

/-! ### Parsing of well-formed `SD` payloads -/

theorem natToBeBytes_two (n : Nat) :
    natToBeBytes 2 n = [n / 256 % 256, n % 256] := rfl

theorem sdPayload_drop8 (ct a : Nat) (k v : Bytes) :
    (sdPayload ct a k v).drop 8 = a :: (natToBeBytes 2 k.length ++ (k ++ v)) := by
  rw [sdPayload]
  simp only [List.append_assoc]
  rw [List.drop_left' (length_natToBeBytes 8 ct)]
  rfl

theorem sdPayload_drop11 (ct a : Nat) (k v : Bytes) :
    (sdPayload ct a k v).drop 11 = k ++ v := by
  have h8 := sdPayload_drop8 ct a k v
  have : (sdPayload ct a k v).drop 11 = ((sdPayload ct a k v).drop 8).drop 3 := by
    rw [List.drop_drop]
  rw [this, h8]
  show (natToBeBytes 2 k.length ++ (k ++ v)).drop 2 = k ++ v
  exact List.drop_left' (length_natToBeBytes 2 k.length)

theorem sdPayload_length (ct a : Nat) (k v : Bytes) :
    (sdPayload ct a k v).length = 11 + k.length + v.length := by
  simp [sdPayload, length_natToBeBytes]
  omega

/-- Behaviour of `handle_set_data` on a well-formed `SD` payload whose
cache time fits in a `u64` and whose key is short enough for the `u16`
length arithmetic not to wrap. -/
theorem handle_set_data_spec (now ct a : Nat) (k v : Bytes) (st : DBState)
    (hct : ct < 2 ^ 64) (hk : k.length < 65525) :
    handle_set_data now (sdPayload ct a k v) st =
      if a ≠ 0 ∧ alContains k st.shared then some (("NA", []), st)
      else some (("OK", []),
        ⟨alInsert k v st.shared,
         if ct > 0 then alInsert k (now + ct) st.timeout
         else alRemove k st.timeout⟩) := by
  have hlen := sdPayload_length ct a k v
  have hd8 := sdPayload_drop8 ct a k v
  have hd11 := sdPayload_drop11 ct a k v
  have htake8 : (sdPayload ct a k v).take 8 = natToBeBytes 8 ct := by
    rw [sdPayload]
    exact List.take_left' (length_natToBeBytes 8 ct)
  have hct8 : beBytesToNat ((sdPayload ct a k v).take 8) = ct := by
    rw [htake8]
    exact beBytesToNat_natToBeBytes_of_lt (by norm_num; omega)
  have hb8 : byteAt (sdPayload ct a k v) 8 = a := by
    rw [byteAt, hd8]
    rfl
  have hb9 : byteAt (sdPayload ct a k v) 9 = k.length / 256 % 256 := by
    rw [byteAt, show (9 : Nat) = 8 + 1 from rfl, ← List.drop_drop, hd8,
      natToBeBytes_two]
    rfl
  have hb10 : byteAt (sdPayload ct a k v) 10 = k.length % 256 := by
    rw [byteAt, show (10 : Nat) = 8 + 2 from rfl, ← List.drop_drop, hd8,
      natToBeBytes_two]
    rfl
  have hklen : 256 * (k.length / 256 % 256) + k.length % 256 = k.length := by
    omega
  have hkiu : (k.length + 11) % 65536 = k.length + 11 := Nat.mod_eq_of_lt (by omega)
  have hkey : ((sdPayload ct a k v).drop 11).take k.length = k := by
    rw [hd11]
    exact List.take_left' rfl
  have hval : (sdPayload ct a k v).drop (k.length + 11) = v := by
    rw [show k.length + 11 = 11 + k.length from by omega, ← List.drop_drop, hd11]
    exact List.drop_left' rfl
  rw [handle_set_data]
  rw [if_neg (by omega)]
  simp only [hct8, hb8, hb9, hb10, hklen, hkiu]
  rw [if_neg (by omega)]
  simp only [hkey, hval]
  split
  · rfl
  · split <;> rfl

/-- C1 (amended): after an `SD` request with `is_add = 0` whose value
bytes are the tag byte `B` followed by `b`, a `GD` request for the key
replies `BY` with payload exactly `b` (the stored leading byte is
stripped). -/
theorem sd_bytes_then_gd (now ct : Nat) (k b : Bytes) (st : DBState)
    (hct : ct < 2 ^ 64) (hk : k.length < 65525) :
    ∃ st', handle_set_data now (sdPayload ct 0 k (66 :: b)) st = some (("OK", []), st') ∧
      handle_get_data k st' = some (("BY", b), st') := by
  refine ⟨⟨alInsert k (66 :: b) st.shared,
    if ct > 0 then alInsert k (now + ct) st.timeout else alRemove k st.timeout⟩, ?_, ?_⟩
  · rw [handle_set_data_spec now ct 0 k (66 :: b) st hct hk]
    simp
  · rw [handle_get_data]
    simp [alGet_insert_self]

/-- Witness for `sd_bytes_then_gd` at `k = "foo"`, `b = [120]`. -/
theorem sd_bytes_then_gd_witness :
    ∃ st', handle_set_data 0 (sdPayload 0 0 [102, 111, 111] (66 :: [120])) ⟨[], []⟩ =
        some (("OK", []), st') ∧
      handle_get_data [102, 111, 111] st' = some (("BY", [120]), st') :=
  sd_bytes_then_gd 0 0 [102, 111, 111] [120] ⟨[], []⟩ (by norm_num) (by norm_num)

/-- C1 (counterexample): the end-to-end scenario S1 of the specification.
`SD` with value bytes `"bar"` stores them verbatim; the subsequent `GD`
for `"foo"` replies `ER` code 5 (the first stored byte `b` is not a
recognized tag), not `(BY, "bar")` as the claim states. -/
theorem sd_then_gd_claim_false :
    handle_set_data 0 (sdPayload 0 0 [102, 111, 111] [98, 97, 114]) ⟨[], []⟩ =
      some (("OK", []), ⟨[([102, 111, 111], [98, 97, 114])], []⟩) ∧
    handle_get_data [102, 111, 111] ⟨[([102, 111, 111], [98, 97, 114])], []⟩ =
      some (erReply 5, ⟨[([102, 111, 111], [98, 97, 114])], []⟩) ∧
    handle_get_data [102, 111, 111] ⟨[([102, 111, 111], [98, 97, 114])], []⟩ ≠
      some (("BY", [98, 97, 114]), ⟨[([102, 111, 111], [98, 97, 114])], []⟩) := by
  refine ⟨by decide, by decide, by decide⟩

/-- C6: an `SD` request with a nonzero `is_add` flag whose key already
exists replies `NA` with empty payload and leaves the state (both maps)
unchanged. -/
theorem sd_add_existing_na (now ct a : Nat) (k v : Bytes) (st : DBState)
    (hct : ct < 2 ^ 64) (hk : k.length < 65525) (ha : a ≠ 0)
    (hc : alContains k st.shared = true) :
    handle_set_data now (sdPayload ct a k v) st = some (("NA", []), st) := by
  rw [handle_set_data_spec now ct a k v st hct hk]
  rw [if_pos ⟨ha, by rw [hc]⟩]

/-- Witness for `sd_add_existing_na`. -/
theorem sd_add_existing_na_witness :
    handle_set_data 7 (sdPayload 3 1 [107] [66, 2]) ⟨[([107], [66, 1])], [([107], 9)]⟩ =
      some (("NA", []), ⟨[([107], [66, 1])], [([107], 9)]⟩) :=
  sd_add_existing_na 7 3 1 [107] [66, 2] ⟨[([107], [66, 1])], [([107], 9)]⟩
    (by norm_num) (by norm_num) (by norm_num) (by decide)

/-- C10: an `SD` request whose payload ends exactly at the key stores the
empty byte string; the subsequent `GD` for that key indexes byte 0 of the
empty value and panics (models to `none`) instead of producing a reply. -/
theorem sd_empty_value_gd_panics (now ct : Nat) (k : Bytes) (st : DBState)
    (hct : ct < 2 ^ 64) (hk : k.length < 65525) :
    ∃ st', handle_set_data now (sdPayload ct 0 k []) st = some (("OK", []), st') ∧
      alGet k st'.shared = some [] ∧ handle_get_data k st' = none := by
  refine ⟨⟨alInsert k [] st.shared,
    if ct > 0 then alInsert k (now + ct) st.timeout else alRemove k st.timeout⟩, ?_, ?_, ?_⟩
  · rw [handle_set_data_spec now ct 0 k [] st hct hk]
    simp
  · exact alGet_insert_self k [] st.shared
  · rw [handle_get_data]
    simp [alGet_insert_self]

/-- Witness for `sd_empty_value_gd_panics` at `k = "k"`. -/
theorem sd_empty_value_gd_panics_witness :
    ∃ st', handle_set_data 5 (sdPayload 0 0 [107] []) ⟨[], []⟩ = some (("OK", []), st') ∧
      alGet [107] st'.shared = some [] ∧ handle_get_data [107] st' = none :=
  sd_empty_value_gd_panics 5 0 [107] ⟨[], []⟩ (by norm_num) (by norm_num)

/-! ### Frame codec round-trip (C9) -/

/-- C9: writing a frame with any two-byte opcode and any payload whose
length fits in a `u64`, then reading the produced bytes back, yields the
identical opcode and payload (in particular for the payload lengths 0, 1,
11, 4096 and 2^20 named by the specification). -/
theorem frame_roundtrip (mt payload : Bytes) (h2 : mt.length = 2)
    (hlen : payload.length < 2 ^ 64) :
    read_frame (write_frame mt payload) = (mt, payload) := by
  have hH : ((66 :: mt) ++ natToBeBytes 8 payload.length).length = 11 := by
    simp [length_natToBeBytes, h2]
  have hw : write_frame mt payload =
      ((66 :: mt) ++ natToBeBytes 8 payload.length) ++ payload := rfl
  have hlen11 : (write_frame mt payload).length = 11 + payload.length := by
    rw [hw, List.length_append, hH]
  have htake : (write_frame mt payload).take 11 =
      (66 :: mt) ++ natToBeBytes 8 payload.length := by
    rw [hw]
    exact List.take_left' hH
  have hdropin : (write_frame mt payload).drop 11 = payload := by
    rw [hw]
    exact List.drop_left' hH
  have hhdr3 : ((66 :: mt) ++ natToBeBytes 8 payload.length).drop 3 =
      natToBeBytes 8 payload.length :=
    List.drop_left' (by simp [h2])
  have h256 : (256 : Nat) ^ 8 = 2 ^ 64 := by norm_num
  have hpl : beBytesToNat (natToBeBytes 8 payload.length) = payload.length :=
    beBytesToNat_natToBeBytes_of_lt (by omega)
  have hhd : ((66 :: mt) ++ natToBeBytes 8 payload.length).headD 0 = 66 := rfl
  have hmt : (((66 :: mt) ++ natToBeBytes 8 payload.length).drop 1).take 2 = mt := by
    show (mt ++ natToBeBytes 8 payload.length).take 2 = mt
    exact List.take_left' h2
  rw [read_frame, if_neg (by omega)]
  simp only [htake, hdropin, hhdr3, hpl, hhd, hmt]
  simp [List.take_length]

/-- Witness for `frame_roundtrip` at opcode `SD` and an 11-byte payload. -/
theorem frame_roundtrip_witness :
    read_frame (write_frame [83, 68] [0, 1, 2, 3, 4, 5, 6, 7, 8, 9, 10]) =
      ([83, 68], [0, 1, 2, 3, 4, 5, 6, 7, 8, 9, 10]) :=
  frame_roundtrip [83, 68] [0, 1, 2, 3, 4, 5, 6, 7, 8, 9, 10] (by norm_num)
    (by norm_num)

/-! ### Increment type discipline (C5) -/

/-- C5 (counterexample): an `SD` request can store the empty byte string
(reachable state); an `II` request on that key then panics while indexing
byte 0 of the empty value (models to `none`) instead of replying `ER`
code 5 as the claim states for every non-counter value. -/
theorem incr_on_empty_value_panics :
    handle_set_data 5 (sdPayload 0 0 [107] []) ⟨[], []⟩ =
      some (("OK", []), ⟨[([107], [])], []⟩) ∧
    handle_increment_integer (iiPayload 1 [107]) ⟨[([107], [])], []⟩ = none := by
  exact ⟨by decide, by decide⟩

/-- C5 (amended): for every key whose stored value exists and is
non-empty, an `II` request replies `ER` code 5 and leaves the state
(value and deadline maps) unchanged whenever the value is not exactly
9 bytes with leading tag `I`, and an `IF` request does so whenever the
value is not exactly 9 bytes with leading tag `F` — each opcode under its
own condition only, so in particular `II` on a valid `F`-tagged counter
and `IF` on a valid `I`-tagged counter reply `ER` code 5; on the
reachable empty stored value the handlers instead panic. -/
theorem incr_wrong_type_er5 (ext : Ext) (st : DBState) (k v pl : Bytes)
    (hv : alGet k st.shared = some v) (hne : v ≠ [])
    (hpl8 : 8 ≤ pl.length) (hplk : pl.drop 8 = k) :
    (v.headD 0 ≠ 73 ∨ v.length ≠ 9 →
      handle_increment_integer pl st = some (erReply 5, st)) ∧
    (v.headD 0 ≠ 70 ∨ v.length ≠ 9 →
      handle_increment_float ext pl st = some (erReply 5, st)) := by
  constructor
  · intro hI
    simp only [handle_increment_integer, if_neg (show ¬ pl.length < 8 by omega),
      hplk, hv]
    rw [if_neg hne, if_pos hI]
  · intro hF
    simp only [handle_increment_float, if_neg (show ¬ pl.length < 8 by omega),
      hplk, hv]
    rw [if_neg hne, if_pos hF]

/-- Witness for `incr_wrong_type_er5`, exercising the cross-tag cases:
`II` on a valid 9-byte `F`-tagged counter and `IF` on a valid 9-byte
`I`-tagged counter each reply `ER` code 5 with the state unchanged. -/
theorem incr_wrong_type_er5_witness :
    handle_increment_integer (iiPayload 1 [107])
        ⟨[([107], [70, 0, 0, 0, 0, 0, 0, 0, 1])], []⟩ =
      some (erReply 5, ⟨[([107], [70, 0, 0, 0, 0, 0, 0, 0, 1])], []⟩) ∧
    handle_increment_float extId (iiPayload 1 [108])
        ⟨[([108], [73, 0, 0, 0, 0, 0, 0, 0, 1])], []⟩ =
      some (erReply 5, ⟨[([108], [73, 0, 0, 0, 0, 0, 0, 0, 1])], []⟩) :=
  ⟨(incr_wrong_type_er5 extId ⟨[([107], [70, 0, 0, 0, 0, 0, 0, 0, 1])], []⟩
      [107] [70, 0, 0, 0, 0, 0, 0, 0, 1] (iiPayload 1 [107])
      (by decide) (by decide) (by decide) (by decide)).1 (by decide),
   (incr_wrong_type_er5 extId ⟨[([108], [73, 0, 0, 0, 0, 0, 0, 0, 1])], []⟩
      [108] [73, 0, 0, 0, 0, 0, 0, 0, 1] (iiPayload 1 [108])
      (by decide) (by decide) (by decide) (by decide)).2 (by decide)⟩

/-! ### Counter arithmetic (C7) -/

theorem iiPayload_take8 (d : Int) (k : Bytes) :
    (iiPayload d k).take 8 = i64ToBytes d := by
  rw [iiPayload]
  exact List.take_left' (length_i64ToBytes d)

theorem iiPayload_drop8 (d : Int) (k : Bytes) :
    (iiPayload d k).drop 8 = k := by
  rw [iiPayload]
  exact List.drop_left' (length_i64ToBytes d)

theorem iiPayload_length (d : Int) (k : Bytes) :
    (iiPayload d k).length = 8 + k.length := by
  simp [iiPayload, length_i64ToBytes]

/-- `II` on an absent key creates the tagged counter from the delta
bytes. -/
theorem ii_fresh (k : Bytes) (d : Int) (st : DBState)
    (h : alGet k st.shared = none) :
    handle_increment_integer (iiPayload d k) st =
      some (("IN", i64ToBytes d),
        ⟨alInsert k (73 :: i64ToBytes d) st.shared, st.timeout⟩) := by
  have hlen := iiPayload_length d k
  simp only [handle_increment_integer, if_neg (show ¬ (iiPayload d k).length < 8 by omega),
    iiPayload_take8, iiPayload_drop8, h]

/-- `II` on a well-formed stored counter adds the delta with wrapping
`i64` semantics. -/
theorem ii_occupied (k : Bytes) (d cur : Int) (st : DBState)
    (hd1 : -2 ^ 63 ≤ d) (hd2 : d < 2 ^ 63)
    (hc1 : -2 ^ 63 ≤ cur) (hc2 : cur < 2 ^ 63)
    (h : alGet k st.shared = some (73 :: i64ToBytes cur)) :
    handle_increment_integer (iiPayload d k) st =
      some (("IN", i64ToBytes (wrap64 (cur + d))),
        ⟨alInsert k (73 :: i64ToBytes (wrap64 (cur + d))) st.shared, st.timeout⟩) := by
  have hlen := iiPayload_length d k
  have hvne : (73 :: i64ToBytes cur) ≠ [] := List.cons_ne_nil _ _
  have hcond : ¬ ((73 :: i64ToBytes cur).headD 0 ≠ 73 ∨
      (73 :: i64ToBytes cur).length ≠ 9) := by
    simp [length_i64ToBytes]
  have hdropv : (73 :: i64ToBytes cur).drop 1 = i64ToBytes cur := rfl
  simp only [handle_increment_integer, if_neg (show ¬ (iiPayload d k).length < 8 by omega),
    iiPayload_take8, iiPayload_drop8, h, if_neg hvne, if_neg hcond, hdropv,
    bytesToI64_i64ToBytes hc1 hc2, bytesToI64_i64ToBytes hd1 hd2]

/-- Accumulator form of the counter-sum theorem: from a state holding the
counter value `cur`, a non-empty delta sequence drives the counter to the
wrapped sum `cur + Σ dᵢ`. -/
theorem runII_acc (k : Bytes) (ds : List Int) :
    ∀ (st : DBState) (cur : Int), -2 ^ 63 ≤ cur → cur < 2 ^ 63 →
    alGet k st.shared = some (73 :: i64ToBytes cur) →
    (∀ d ∈ ds, -2 ^ 63 ≤ d ∧ d < 2 ^ 63) → ds ≠ [] →
    ∃ st', runII k st ds = some (i64ToBytes (wrap64 (cur + ds.sum)), st') ∧
      alGet k st'.shared = some (73 :: i64ToBytes (wrap64 (cur + ds.sum))) := by
  induction ds with
  | nil => intro _ _ _ _ _ _ hne; exact absurd rfl hne
  | cons d rest ih =>
    intro st cur hc1 hc2 hget hds _
    have hd := hds d (List.mem_cons_self d rest)
    have hstep := ii_occupied k d cur st hd.1 hd.2 hc1 hc2 hget
    match rest with
    | [] =>
      refine ⟨⟨alInsert k (73 :: i64ToBytes (wrap64 (cur + d))) st.shared, st.timeout⟩,
        ?_, ?_⟩
      · simp only [runII, hstep]
        simp [List.sum_cons]
      · simp [alGet_insert_self, List.sum_cons]
    | d2 :: rest2 =>
      have hrec := ih ⟨alInsert k (73 :: i64ToBytes (wrap64 (cur + d))) st.shared,
          st.timeout⟩ (wrap64 (cur + d)) (wrap64_lb _) (wrap64_ub _)
        (alGet_insert_self _ _ _)
        (fun x hx => hds x (List.mem_cons_of_mem d hx)) (by simp)
      obtain ⟨st', h1, h2⟩ := hrec
      have hsum : wrap64 (wrap64 (cur + d) + (d2 :: rest2).sum) =
          wrap64 (cur + (d :: d2 :: rest2).sum) := by
        rw [wrap64_add_left]
        congr 1
        simp [List.sum_cons]
        ring
      have hun : runII k st (d :: d2 :: rest2) =
          runII k ⟨alInsert k (73 :: i64ToBytes (wrap64 (cur + d))) st.shared,
            st.timeout⟩ (d2 :: rest2) := by
        simp only [runII, hstep]
      refine ⟨st', ?_, ?_⟩
      · rw [hun, h1, hsum]
      · rw [h2, hsum]

/-- C7: starting from a key absent from the store, a sequence of `II`
requests with deltas `d₁ … dₙ` leaves the key holding the tagged
big-endian encoding of `Σ dᵢ` under wrapping signed 64-bit arithmetic,
and the last `IN` reply carries exactly those 8 bytes. -/
theorem ii_counter_wrap_sum (k : Bytes) (st : DBState) (ds : List Int)
    (hfresh : alGet k st.shared = none) (hne : ds ≠ [])
    (hds : ∀ d ∈ ds, -2 ^ 63 ≤ d ∧ d < 2 ^ 63) :
    ∃ st', runII k st ds = some (i64ToBytes (wrap64 ds.sum), st') ∧
      alGet k st'.shared = some (73 :: i64ToBytes (wrap64 ds.sum)) := by
  match ds with
  | [] => exact absurd rfl hne
  | d :: rest =>
    have hd := hds d (List.mem_cons_self d rest)
    have hstep := ii_fresh k d st hfresh
    have hwd : wrap64 d = d := wrap64_of_range hd.1 hd.2
    match rest with
    | [] =>
      refine ⟨⟨alInsert k (73 :: i64ToBytes d) st.shared, st.timeout⟩, ?_, ?_⟩
      · simp only [runII, hstep]
        simp [List.sum_cons, hwd]
      · simp [alGet_insert_self, List.sum_cons, hwd]
    | d2 :: rest2 =>
      have hrec := runII_acc k (d2 :: rest2)
        ⟨alInsert k (73 :: i64ToBytes d) st.shared, st.timeout⟩ d hd.1 hd.2
        (alGet_insert_self _ _ _)
        (fun x hx => hds x (List.mem_cons_of_mem d hx)) (by simp)
      obtain ⟨st', h1, h2⟩ := hrec
      have hsum : wrap64 (d + (d2 :: rest2).sum) = wrap64 (d :: d2 :: rest2).sum := by
        simp [List.sum_cons]
      have hun : runII k st (d :: d2 :: rest2) =
          runII k ⟨alInsert k (73 :: i64ToBytes d) st.shared, st.timeout⟩
            (d2 :: rest2) := by
        simp only [runII, hstep]
      refine ⟨st', ?_, ?_⟩
      · rw [hun, h1, hsum]
      · rw [h2, hsum]

/-- Witness for `ii_counter_wrap_sum` at deltas `[5, -2]`. -/
theorem ii_counter_wrap_sum_witness :
    ∃ st', runII [99] ⟨[], []⟩ [5, -2] =
        some (i64ToBytes (wrap64 ([5, -2] : List Int).sum), st') ∧
      alGet [99] st'.shared = some (73 :: i64ToBytes (wrap64 ([5, -2] : List Int).sum)) :=
  ii_counter_wrap_sum [99] ⟨[], []⟩ [5, -2] (by decide) (by decide)
    (by decide)

/-! ### Query engine claims (C2, C3, C4) -/

/-- C3: on a batch with a non-empty filter list in which every clause is
skipped (here: one clause whose `data_type` tag `XX` is not recognized),
`process_filter` does not produce the all-true mask; the
`reduce(..).unwrap()` of the source is an `unwrap` of `None` and the call
panics (models to `none`) for every behaviour of the external
collaborators. -/
theorem all_skipped_filter_panics (ext : Ext) :
    processFilter ext rbC3 [] "AND" [clauseC3] = none := rfl

/-- C4 (general form): when the source value under the query key is
tagged `A` but `StreamReader::try_new` fails to read the stream header
from the remaining bytes, `handle_get_arrow_data` panics through
`.expect("Read error")` (models to `none`) instead of replying `ER`
code 4. -/
theorem ga_header_decode_abort (ext : Ext) (now : Nat) (payload : Bytes)
    (st : DBState) (q : QueryM) (body : Bytes)
    (hmiss : alGet payload st.shared = none)
    (hq : ext.parseQuery payload = some q)
    (hsrc : alGet q.key st.shared = some (65 :: body))
    (hread : ext.readStream body = .headerError) :
    handle_get_arrow_data ext now payload st = none := by
  simp only [handle_get_arrow_data, hmiss, hq, hsrc]
  simp [hread]

/-- Witness for `ga_header_decode_abort`: the stored value `[0x41]` under
key `t` (its empty remainder cannot contain a stream header). -/
theorem ga_header_decode_abort_witness :
    handle_get_arrow_data extC4 0 [113] ⟨[([116], [65])], []⟩ = none :=
  ga_header_decode_abort extC4 0 [113] ⟨[([116], [65])], []⟩ qC4 []
    rfl rfl rfl rfl

/-- C2 (amended): when `cachetime > 0` the memoization step of
`handle_get_arrow_data` inserts under the fingerprint key exactly the
encoder's output bytes, with no `A` tag byte prepended; the stored value
begins with `A` only if the encoded stream itself does. -/
theorem ga_memoize_verbatim (ext : Ext) (now : Nat) (payload : Bytes)
    (st : DBState) (q : QueryM) (body : Bytes) (rb frb : RecordBatchM)
    (hmiss : alGet payload st.shared = none)
    (hq : ext.parseQuery payload = some q)
    (hct : q.cachetime > 0)
    (hsrc : alGet q.key st.shared = some (65 :: body))
    (hread : ext.readStream body = .batch rb)
    (hfilt : processFilter ext rb q.columns q.filterlogic q.filter = some frb) :
    handle_get_arrow_data ext now payload st =
      some (("AR", ext.encode frb (compressionOf q.compression_type)),
        ⟨alInsert payload (ext.encode frb (compressionOf q.compression_type)) st.shared,
         alInsert payload (now + q.cachetime) st.timeout⟩) := by
  simp only [handle_get_arrow_data, hmiss, hq, hsrc]
  simp [hread, hfilt, hct]

/-- Witness for `ga_memoize_verbatim`. -/
theorem ga_memoize_verbatim_witness :
    handle_get_arrow_data extC2 0 plC2 stC2 =
      some (("AR", extC2.encode rbC2 (compressionOf qC2.compression_type)),
        ⟨alInsert plC2 (extC2.encode rbC2 (compressionOf qC2.compression_type)) stC2.shared,
         alInsert plC2 (0 + qC2.cachetime) stC2.timeout⟩) :=
  ga_memoize_verbatim extC2 0 plC2 stC2 qC2 [9] rbC2 rbC2
    rfl rfl (by decide) rfl rfl (by decide)

/-- C2 (counterexample): a complete `GA` run with `cachetime > 0` in
which the encoder emits the Arrow V5 stream continuation marker bytes:
the value inserted under the fingerprint key is `FF FF FF FF`, whose
first byte is none of the tags `A`, `B`, `I`, `F`, refuting the claim
that every memoized value begins with the tag byte `A`. -/
theorem ga_memoized_value_untagged :
    handle_get_arrow_data extC2 0 plC2 stC2 =
      some (("AR", [255, 255, 255, 255]),
        ⟨[(plC2, [255, 255, 255, 255]), ([116], [65, 9])], [(plC2, 1000)]⟩) ∧
    alGet plC2 [(plC2, [255, 255, 255, 255]), ([116], [65, 9])] =
      some [255, 255, 255, 255] ∧
    ([255, 255, 255, 255] : Bytes).headD 0 ≠ 65 ∧
    ([255, 255, 255, 255] : Bytes).headD 0 ≠ 66 ∧
    ([255, 255, 255, 255] : Bytes).headD 0 ≠ 73 ∧
    ([255, 255, 255, 255] : Bytes).headD 0 ≠ 70 := by
  exact ⟨by decide, by decide, by decide, by decide, by decide, by decide⟩

/-! ### Deadline-domain invariant (C8) -/

theorem domSub_empty : domSub ⟨[], []⟩ := by
  intro k h
  simp [alContains, alGet] at h

theorem domSub_insert_insert (k : Bytes) (v : Bytes) (t : Nat) (st : DBState)
    (h : domSub st) : domSub ⟨alInsert k v st.shared, alInsert k t st.timeout⟩ := by
  intro k' hk'
  simp only [alContains_insert] at hk' ⊢
  by_cases he : k' = k
  · simp [he]
  · simp only [he, decide_eq_false he, Bool.false_or] at hk' ⊢
    exact h k' hk'

theorem domSub_insert_remove (k : Bytes) (v : Bytes) (st : DBState)
    (h : domSub st) : domSub ⟨alInsert k v st.shared, alRemove k st.timeout⟩ := by
  intro k' hk'
  simp only [alContains_remove] at hk'
  simp only [alContains_insert]
  by_cases he : k' = k
  · simp [he]
  · simp only [decide_eq_false he, Bool.not_false, Bool.true_and] at hk'
    simp only [decide_eq_false he, Bool.false_or]
    exact h k' hk'

theorem domSub_shared_insert (k : Bytes) (v : Bytes) (st : DBState)
    (h : domSub st) : domSub ⟨alInsert k v st.shared, st.timeout⟩ := by
  intro k' hk'
  simp only [alContains_insert]
  by_cases he : k' = k
  · simp [he]
  · simp only [decide_eq_false he, Bool.false_or]
    exact h k' hk'

theorem domSub_remove_remove (k : Bytes) (st : DBState)
    (h : domSub st) : domSub ⟨alRemove k st.shared, alRemove k st.timeout⟩ := by
  intro k' hk'
  simp only [alContains_remove] at hk' ⊢
  rw [Bool.and_eq_true] at hk' ⊢
  exact ⟨hk'.1, h k' hk'.2⟩

theorem domSub_timeout_remove (k : Bytes) (st : DBState)
    (h : domSub st) : domSub ⟨st.shared, alRemove k st.timeout⟩ := by
  intro k' hk'
  simp only [alContains_remove] at hk'
  rw [Bool.and_eq_true] at hk'
  exact h k' hk'.2

theorem domSub_timeout_insert (k : Bytes) (t : Nat) (st : DBState)
    (hc : alContains k st.shared = true) (h : domSub st) :
    domSub ⟨st.shared, alInsert k t st.timeout⟩ := by
  intro k' hk'
  simp only [alContains_insert] at hk'
  by_cases he : k' = k
  · rw [he]
    exact hc
  · simp only [decide_eq_false he, Bool.false_or] at hk'
    exact h k' hk'

theorem handle_set_data_domSub (now : Nat) (payload : Bytes) (st : DBState)
    (r : Reply × DBState) (h : domSub st)
    (hs : handle_set_data now payload st = some r) : domSub r.2 := by
  simp only [handle_set_data] at hs
  split at hs
  · exact absurd hs (by simp)
  · split at hs
    · exact absurd hs (by simp)
    · split at hs
      · obtain rfl := Option.some.inj hs
        exact h
      · split at hs
        · obtain rfl := Option.some.inj hs
          exact domSub_insert_insert _ _ _ st h
        · obtain rfl := Option.some.inj hs
          exact domSub_insert_remove _ _ st h

theorem handle_increment_integer_domSub (payload : Bytes) (st : DBState)
    (r : Reply × DBState) (h : domSub st)
    (hs : handle_increment_integer payload st = some r) : domSub r.2 := by
  simp only [handle_increment_integer] at hs
  split at hs
  · exact absurd hs (by simp)
  · split at hs
    · split at hs
      · exact absurd hs (by simp)
      · split at hs
        · obtain rfl := Option.some.inj hs
          exact h
        · obtain rfl := Option.some.inj hs
          exact domSub_shared_insert _ _ st h
    · obtain rfl := Option.some.inj hs
      exact domSub_shared_insert _ _ st h

theorem handle_increment_float_domSub (ext : Ext) (payload : Bytes) (st : DBState)
    (r : Reply × DBState) (h : domSub st)
    (hs : handle_increment_float ext payload st = some r) : domSub r.2 := by
  simp only [handle_increment_float] at hs
  split at hs
  · exact absurd hs (by simp)
  · split at hs
    · split at hs
      · exact absurd hs (by simp)
      · split at hs
        · obtain rfl := Option.some.inj hs
          exact h
        · obtain rfl := Option.some.inj hs
          exact domSub_shared_insert _ _ st h
    · obtain rfl := Option.some.inj hs
      exact domSub_shared_insert _ _ st h

theorem handle_get_arrow_data_domSub (ext : Ext) (now : Nat) (payload : Bytes)
    (st : DBState) (r : Reply × DBState) (h : domSub st)
    (hs : handle_get_arrow_data ext now payload st = some r) : domSub r.2 := by
  simp only [handle_get_arrow_data] at hs
  split at hs
  · obtain rfl := Option.some.inj hs
    exact h
  · split at hs
    · obtain rfl := Option.some.inj hs
      exact h
    · split at hs
      · obtain rfl := Option.some.inj hs
        exact h
      · split at hs
        · exact absurd hs (by simp)
        · split at hs
          · obtain rfl := Option.some.inj hs
            exact h
          · split at hs
            · exact absurd hs (by simp)
            · obtain rfl := Option.some.inj hs
              exact h
            · obtain rfl := Option.some.inj hs
              exact h
            · split at hs
              · exact absurd hs (by simp)
              · split at hs
                · obtain rfl := Option.some.inj hs
                  exact domSub_insert_insert _ _ _ st h
                · obtain rfl := Option.some.inj hs
                  exact h

theorem handle_get_data_domSub (payload : Bytes) (st : DBState)
    (r : Reply × DBState) (h : domSub st)
    (hs : handle_get_data payload st = some r) : domSub r.2 := by
  simp only [handle_get_data] at hs
  split at hs
  · split at hs
    · exact absurd hs (by simp)
    · split at hs
      · obtain rfl := Option.some.inj hs
        exact h
      · split at hs
        · obtain rfl := Option.some.inj hs
          exact h
        · split at hs
          · obtain rfl := Option.some.inj hs
            exact h
          · split at hs
            · obtain rfl := Option.some.inj hs
              exact h
            · obtain rfl := Option.some.inj hs
              exact h
  · obtain rfl := Option.some.inj hs
    exact h

theorem handle_delete_domSub (payload : Bytes) (st : DBState)
    (r : Reply × DBState) (h : domSub st)
    (hs : handle_delete payload st = some r) : domSub r.2 := by
  simp only [handle_delete] at hs
  split at hs
  · obtain rfl := Option.some.inj hs
    exact domSub_remove_remove _ st h
  · obtain rfl := Option.some.inj hs
    exact domSub_timeout_remove _ st h

theorem handle_touch_domSub (now : Nat) (payload : Bytes) (st : DBState)
    (r : Reply × DBState) (h : domSub st)
    (hs : handle_touch now payload st = some r) : domSub r.2 := by
  simp only [handle_touch] at hs
  split at hs
  · exact absurd hs (by simp)
  · split at hs
    · split at hs
      · obtain rfl := Option.some.inj hs
        exact domSub_timeout_insert _ _ st (by assumption) h
      · obtain rfl := Option.some.inj hs
        exact domSub_timeout_remove _ st h
    · obtain rfl := Option.some.inj hs
      exact h

theorem handle_ttl_domSub (now : Nat) (payload : Bytes) (st : DBState)
    (r : Reply × DBState) (h : domSub st)
    (hs : handle_ttl now payload st = some r) : domSub r.2 := by
  simp only [handle_ttl] at hs
  split at hs
  · split at hs
    · obtain rfl := Option.some.inj hs
      exact h
    · obtain rfl := Option.some.inj hs
      exact h
  · split at hs
    · obtain rfl := Option.some.inj hs
      exact h
    · obtain rfl := Option.some.inj hs
      exact h

theorem handle_has_key_domSub (payload : Bytes) (st : DBState)
    (r : Reply × DBState) (h : domSub st)
    (hs : handle_has_key payload st = some r) : domSub r.2 := by
  simp only [handle_has_key] at hs
  split at hs
  · obtain rfl := Option.some.inj hs
    exact h
  · obtain rfl := Option.some.inj hs
    exact h

theorem handle_list_keys_domSub (ext : Ext) (payload : Bytes) (st : DBState)
    (r : Reply × DBState) (h : domSub st)
    (hs : handle_list_keys ext payload st = some r) : domSub r.2 := by
  simp only [handle_list_keys] at hs
  obtain rfl := Option.some.inj hs
  exact h

theorem dmStep_domSub (acc : DBState × Nat) (key : Bytes)
    (h : domSub acc.1) : domSub (dmStep acc key).1 := by
  rw [dmStep]
  split
  · exact domSub_remove_remove key acc.1 h
  · exact domSub_timeout_remove key acc.1 h

theorem dm_foldl_domSub (keys : List Bytes) :
    ∀ (acc : DBState × Nat), domSub acc.1 → domSub (keys.foldl dmStep acc).1 := by
  induction keys with
  | nil => intro acc h; exact h
  | cons kk rest ih =>
    intro acc h
    rw [List.foldl_cons]
    exact ih (dmStep acc kk) (dmStep_domSub acc kk h)

theorem handle_delete_many_domSub (payload : Bytes) (st : DBState)
    (r : Reply × DBState) (h : domSub st)
    (hs : handle_delete_many payload st = some r) : domSub r.2 := by
  simp only [handle_delete_many] at hs
  obtain rfl := Option.some.inj hs
  exact dm_foldl_domSub (payload.splitOn 0) (st, 0) h

theorem handle_flush_domSub (st : DBState) (r : Reply × DBState)
    (hs : handle_flush st = some r) : domSub r.2 := by
  simp only [handle_flush] at hs
  obtain rfl := Option.some.inj hs
  exact domSub_empty

theorem cleanupExpired_domSub (now : Nat) (st : DBState) (h : domSub st) :
    domSub (cleanupExpired now st) := by
  rw [cleanupExpired]
  generalize (((st.timeout.filter (fun p => decide (now > p.2))).map
    (fun p => p.1)).take 100) = keys
  induction keys generalizing st with
  | nil => exact h
  | cons kk rest ih =>
    rw [List.foldl_cons]
    exact ih _ (domSub_remove_remove kk st h)

theorem handle_frame_domSub (ext : Ext) (now : Nat) (mt : String)
    (payload : Bytes) (st : DBState) (r : Reply × DBState) (h : domSub st)
    (hs : handle_frame ext now mt payload st = some r) : domSub r.2 := by
  rw [handle_frame.eq_def] at hs
  split at hs
  · exact handle_set_data_domSub now payload st r h hs
  · exact handle_increment_integer_domSub payload st r h hs
  · exact handle_increment_float_domSub ext payload st r h hs
  · exact handle_get_arrow_data_domSub ext now payload st r h hs
  · exact handle_get_data_domSub payload st r h hs
  · exact handle_delete_domSub payload st r h hs
  · exact handle_touch_domSub now payload st r h hs
  · exact handle_ttl_domSub now payload st r h hs
  · exact handle_has_key_domSub payload st r h hs
  · exact handle_list_keys_domSub ext payload st r h hs
  · exact handle_delete_many_domSub payload st r h hs
  · exact handle_flush_domSub st r hs
  · obtain rfl := Option.some.inj hs
    exact h
  · obtain rfl := Option.some.inj hs
    exact h
  · obtain rfl := Option.some.inj hs
    exact h

theorem applyStep_domSub (st : DBState) (s : Step) (h : domSub st) :
    domSub (applyStep st s) := by
  cases s with
  | frame ext now mt payload =>
    rw [applyStep]
    split
    · exact handle_frame_domSub ext now mt payload st _ h (by assumption)
    · exact h
  | cleanup now => exact cleanupExpired_domSub now st h

theorem runSteps_domSub (l : List Step) :
    ∀ st : DBState, domSub st → domSub (runSteps st l) := by
  induction l with
  | nil => intro st h; exact h
  | cons s rest ih =>
    intro st h
    rw [runSteps, List.foldl_cons]
    exact ih (applyStep st s) (applyStep_domSub st s h)

/-- C8: starting from empty maps, after any sequence of completed
dispatcher operations (any opcode, including `SD`, `II`, `IF`, `GA`,
`GD`, `DL`, `DM`, `TH`, `TL`, `HK`, `LS`, `FU`) and expirer cleanup
passes executed sequentially, every key present in the deadline map is
also present in the value map. -/
theorem deadline_dom_invariant (steps : List Step) :
    domSub (runSteps ⟨[], []⟩ steps) :=
  runSteps_domSub steps ⟨[], []⟩ domSub_empty

end CupidDB
